import Mathlib

/-!
Shallow embedding of the Clac-Ironpython repository: the MVVM messaging and
binding framework in mvvm.py and the calculator view model in
Clac_Ironpython.py, together with theorems settling the specification
claims about them.
-/

namespace Mvvm

/-- Exception kinds that the embedded Python operations can raise. -/
inductive PyErr where
  | valueError
  | attributeError
  | invalidOperation
  | zeroDivisionError
  | keyError
deriving DecidableEq

/-- Behaviour of a wrapped callable when it is invoked: it either returns
normally or raises some exception other than the weak-reference error. -/
inductive HBeh where
  | ok
  | raises
deriving DecidableEq

/-- Embeds `WeakCallable` (mvvm.py lines 25-71). `hid` is the allocation
identity of the wrapper object (the class defines no `__eq__`, so Python
compares wrappers by object identity); `target` identifies the wrapped
callable (its `im_self`/`im_func` pair, or the plain function); `live`
records whether the weak references still resolve at the moment the model
is examined; `beh` is what the wrapped callable does when it is invoked. -/
structure Handle where
  hid : Nat
  target : Nat
  live : Bool
  beh : HBeh
deriving DecidableEq

/-- Embeds the `_Messenger` state (mvvm.py lines 74-174): `subscribers` is
the `defaultdict(list)` mapping a topic to its subscriber list (default is
the empty list), `queue` is the pending FIFO of `(topic, argument)` pairs,
and `next` is the allocation counter handing out `WeakCallable`
identities. -/
structure Messenger where
  subscribers : Nat → List Handle
  queue : List (Nat × Nat)
  next : Nat

/-- Messenger with no subscribers and no pending messages: the state of the
freshly constructed singleton. -/
def initMessenger : Messenger :=
  { subscribers := fun _ => [], queue := [], next := 0 }

/-- Embeds `_Messenger.subscribe` (mvvm.py lines 127-140): wraps the
handler in a fresh `WeakCallable` (live, because the handler is alive at
subscription time) and appends it to the subscriber list of the topic. -/
def subscribe (s : Messenger) (t handler : Nat) (beh : HBeh) : Messenger :=
  { s with
    subscribers := fun u =>
      if u = t then s.subscribers u ++ [⟨s.next, handler, true, beh⟩]
      else s.subscribers u,
    next := s.next + 1 }

/-- Embeds `_Messenger.send` (mvvm.py lines 117-125): enqueues the message
with its argument. The underlying `Queue.put` on an unbounded queue never
raises, so the operation is total. -/
def send (s : Messenger) (t x : Nat) : Messenger :=
  { s with queue := s.queue ++ [(t, x)] }

/-- Embeds `list.remove(w)` on a list of `WeakCallable` wrappers: since the
class defines no `__eq__`, equality falls back to object identity, so the
first element with the same allocation identity is removed; `none` models
the `ValueError` raised when no element matches. -/
def listRemoveIdentical : List Handle → Handle → Option (List Handle)
  | [], _ => none
  | hd :: rest, w =>
    if hd.hid = w.hid then some rest
    else (listRemoveIdentical rest w).map (fun l => hd :: l)

/-- Embeds `_Messenger.unsubscribe` (mvvm.py lines 143-154): builds a brand
new `WeakCallable(handler)` — which takes the next allocation identity —
and calls `list.remove` with it. When the removal fails the `ValueError`
propagates and the subscriber table is left unchanged. -/
def unsubscribe (s : Messenger) (t handler : Nat) : Messenger × Option PyErr :=
  match listRemoveIdentical (s.subscribers t) ⟨s.next, handler, true, HBeh.ok⟩ with
  | some l =>
    ({ s with
        subscribers := fun u => if u = t then l else s.subscribers u,
        next := s.next + 1 }, none)
  | none => ({ s with next := s.next + 1 }, some PyErr.valueError)

/-- Embeds the inner subscriber loop of `_Messenger._execute` (mvvm.py
lines 163-168) for one message argument: a wrapper whose target was
collected raises `weakref.ReferenceError`, which the bus swallows before
moving on; a live wrapper is called — the call is recorded in the trace
even when the callable then raises, because the invocation did happen — and
a raising callable aborts the drain. Returns the calls made, paired with
`true` when an exception escaped. -/
def dispatchList : List Handle → Nat → List (Nat × Nat) × Bool
  | [], _ => ([], false)
  | hd :: rest, x =>
    if hd.live then
      match hd.beh with
      | HBeh.raises => ([(hd.target, x)], true)
      | HBeh.ok =>
        let r := dispatchList rest x
        ((hd.target, x) :: r.1, r.2)
    else dispatchList rest x

/-- Embeds the `while not self._messages.empty()` loop of
`_Messenger._execute` (mvvm.py lines 160-168). Each message is dequeued
before its dispatch, so when a subscriber exception escapes, the remaining
queue is exactly what had not yet been dequeued. Returns the trace of calls
made, the remaining queue, and whether an exception escaped. -/
def drainQueue (subs : Nat → List Handle) :
    List (Nat × Nat) → List (Nat × Nat) × List (Nat × Nat) × Bool
  | [] => ([], [], false)
  | (t, x) :: rest =>
    let d := dispatchList (subs t) x
    if d.2 then (d.1, rest, true)
    else
      let r := drainQueue subs rest
      (d.1 ++ r.1, r.2.1, r.2.2)

/-- Result of one timer tick: the invocations made, the messenger state
afterwards, and whether an exception propagated out of the tick. -/
structure TickResult where
  trace : List (Nat × Nat)
  state : Messenger
  err : Bool

/-- Embeds `_Messenger._execute` (mvvm.py lines 156-168): one timer tick
drains the whole pending queue under the lock, dispatching each message to
the subscriber list that is current at tick time. -/
def execute (s : Messenger) : TickResult :=
  let r := drainQueue s.subscribers s.queue
  { trace := r.1, state := { s with queue := r.2.1 }, err := r.2.2 }

/-- Allocation soundness for the messenger: every stored wrapper carries an
identity strictly below the allocation counter, so a freshly built wrapper
is identical to none of them. -/
def WfAlloc (s : Messenger) : Prop :=
  ∀ t, ∀ hd ∈ s.subscribers t, hd.hid < s.next

/-- Embeds `Notifiable.__get__` (mvvm.py lines 310-313): the value stored
in the private per-instance slot, or the configured initial value when the
slot was never written. -/
def notifiableGet {α : Type} (initial : α) (slot : Option α) : α :=
  slot.getD initial

/-- Embeds `Notifiable.__set__` (mvvm.py lines 315-319): read the current
value (slot or initial), and only when the new value differs store it and
then raise the property-changed notification once with the property name.
Returns the new slot contents and the list of notifications raised. -/
def notifiableSet {α : Type} [DecidableEq α] (initial : α) (name : String)
    (slot : Option α) (value : α) : Option α × List String :=
  if notifiableGet initial slot ≠ value then (some value, [name])
  else (slot, [])

/-- Attribute names of the Python 2 built-in `list` type backing
`property_chaged_handlers`; attribute lookup is case sensitive and `Remove`
is not among them. -/
def pyListAttrs : List String :=
  ["append", "count", "extend", "index", "insert", "pop", "remove",
   "reverse", "sort", "__getitem__", "__setitem__", "__len__", "__iter__",
   "__contains__", "__add__", "__mul__", "__eq__", "__repr__"]

/-- Embeds the per-instance `ViewModel` state (mvvm.py lines 346-348): the
ordered list of registered property-changed handlers. -/
structure VMState where
  property_chaged_handlers : List Nat
deriving DecidableEq

/-- Embeds `ViewModel.add_PropertyChanged` (mvvm.py lines 361-362):
appends the handler to the registry. -/
def add_PropertyChanged (vm : VMState) (handler : Nat) : VMState :=
  { vm with property_chaged_handlers := vm.property_chaged_handlers ++ [handler] }

/-- Embeds `ViewModel.remove_PropertyChanged` (mvvm.py lines 364-365): it
evaluates `self.property_chaged_handlers.Remove(handler)`, which first
looks up the attribute `Remove` on a Python list; when that lookup fails
the `AttributeError` propagates before any mutation, leaving the handler
list unchanged. The removal branch spells out what would happen if the
attribute existed. -/
def remove_PropertyChanged (vm : VMState) (handler : Nat) :
    VMState × Option PyErr :=
  if "Remove" ∈ pyListAttrs then
    ({ vm with property_chaged_handlers :=
        vm.property_chaged_handlers.erase handler }, none)
  else (vm, some PyErr.attributeError)

/-- Embeds a `Command` object (mvvm.py lines 368-408) as created by
`command.__get__`: `cid` is its allocation identity (reference equality),
`handlerFunc` and `boundTo` record the pair captured by binding the
handler to the instance, and `canExecFunc` the optional predicate bound to
the same instance. -/
structure Command where
  cid : Nat
  handlerFunc : Nat
  boundTo : Nat
  canExecFunc : Option Nat
deriving DecidableEq

/-- Embeds the `command` descriptor state (mvvm.py lines 411-445): the
wrapped handler (`none` models a falsy `_handler`), the optional
`can_execute` function, and the `_command` cache attribute. The cache
lives on the descriptor object itself — one per class attribute — and is
therefore shared by every instance of the owning class. -/
structure CommandDesc where
  handler : Option Nat
  can_execute : Option Nat
  command : Option Command
deriving DecidableEq

/-- Embeds `command.__get__` (mvvm.py lines 439-445). `obj` is the
instance the attribute is accessed through and `fresh` is the next object
allocation identity. A falsy handler raises `AttributeError`; otherwise a
cached `Command` is returned as is, and an absent cache is filled with a
new `Command` binding the handler (and predicate, when present) to `obj`.
Returns the command handed to the caller, the updated descriptor, and the
new allocation counter. -/
def commandGet (d : CommandDesc) (obj fresh : Nat) :
    Except PyErr (Command × CommandDesc × Nat) :=
  match d.handler with
  | none => Except.error PyErr.attributeError
  | some f =>
    match d.command with
    | some c => Except.ok (c, d, fresh)
    | none =>
      let c : Command := ⟨fresh, f, obj, d.can_execute⟩
      Except.ok (c, { d with command := some c }, fresh + 1)

/-- Embeds `List.extend` (mvvm.py lines 268-270). The body is
`for item in seq: return self.Add(item)` — the `return` statement sits
inside the loop, so at most the first element of the sequence is ever
added; on an empty sequence the loop body never runs and nothing is
added. -/
def listExtend {α : Type} (xs : List α) : List α → List α
  | [] => xs
  | a :: _ => xs ++ [a]

end Mvvm

namespace Clac

/-- Dynamically typed value held by the `outputText` buffer: the code
assigns it both strings and, transiently, the integer literal `0`
(Clac_Ironpython.py line 46). -/
inductive TextVal where
  | str : String → TextVal
  | intv : Int → TextVal
deriving DecidableEq

/-- Fuel-driven Euclid step for the greatest common divisor; the fuel is
always sufficient because every step strictly shrinks the first operand. -/
def natGcdF : Nat → Nat → Nat → Nat
  | 0, _, n => n
  | _ + 1, 0, n => n
  | f + 1, m + 1, n => natGcdF f (n % (m + 1)) (m + 1)

/-- Greatest common divisor used to keep fractions normalized, as
`fractions.Fraction` does. -/
def natGcd (m n : Nat) : Nat := natGcdF (m + 2) m n

/-- Embeds `fractions.Fraction`: an exact rational kept in lowest terms
with a positive denominator (zero is stored as 0/1). -/
structure Frac where
  num : Int
  den : Nat
deriving DecidableEq

/-- Normalizing constructor matching what `Fraction` maintains: the sign
lives on the numerator and numerator and denominator are coprime. -/
def mkFrac (n d : Int) : Frac :=
  let sn : Int := if d < 0 then -n else n
  let dd : Nat := d.natAbs
  let g := natGcd dd sn.natAbs
  if g = 0 then ⟨0, 1⟩ else ⟨sn / g, dd / g⟩

/-- Fraction addition. -/
def Frac.add (a b : Frac) : Frac :=
  mkFrac (a.num * b.den + b.num * a.den) (a.den * b.den)

/-- Fraction subtraction. -/
def Frac.sub (a b : Frac) : Frac :=
  mkFrac (a.num * b.den - b.num * a.den) (a.den * b.den)

/-- Fraction multiplication. -/
def Frac.mul (a b : Frac) : Frac :=
  mkFrac (a.num * b.num) (a.den * b.den)

/-- Fraction division; a zero divisor is guarded by the caller, mirroring
the `ZeroDivisionError` check in the embedded operator table. -/
def Frac.div (a b : Frac) : Frac :=
  mkFrac (a.num * b.den) (a.den * b.num)

/-- Numeric value of a list of decimal digit characters. -/
def digitsToNat (l : List Char) : Nat :=
  l.foldl (fun a c => a * 10 + (c.toNat - 48)) 0

/-- Whether every character of the list is a decimal digit. -/
def isDigits (l : List Char) : Bool :=
  l.all (fun c => c.isDigit)

/-- Models the numeric-literal parsing shared by `float(s)` and by the
`frac = lambda a: Fraction(Decimal(a))` helper (Clac_Ironpython.py line 9)
on the plain decimal fragment: an optional sign followed by `digits`,
`digits.digits`, `.digits` or `digits.`; the result is the exact rational
value of the literal. Exponent, infinity, nan and padding forms accepted
by the real parsers lie outside the fragment the program feeds them. -/
def parseNum (s : String) : Option Frac :=
  let sb : Int × List Char :=
    match s.data with
    | '-' :: r => (-1, r)
    | '+' :: r => (1, r)
    | r => (1, r)
  match sb.2.splitOn '.' with
  | [ip] =>
    if ip ≠ [] ∧ isDigits ip then some ⟨sb.1 * digitsToNat ip, 1⟩ else none
  | [ip, fp] =>
    if (ip ≠ [] ∨ fp ≠ []) ∧ isDigits ip ∧ isDigits fp then
      some (mkFrac (sb.1 * (digitsToNat ip * 10 ^ fp.length + digitsToNat fp))
        (10 ^ fp.length))
    else none
  | _ => none

/-- Models `str(float(q))` (Clac_Ironpython.py line 55). For an integer
valued fraction in the range where binary64 conversion is exact, the float
repr is the integer followed by `.0`; every value inspected by a theorem
below is of that form. Non-integral values are rendered from the exact
fraction as a stand-in that no claim relies on. -/
def strFloat (q : Frac) : String :=
  if q.den = 1 then toString q.num ++ ".0"
  else toString q.num ++ "/" ++ toString q.den

/-- Embeds the `operators` dictionary (Clac_Ironpython.py lines 18-22)
looked up at the pending operator and applied to the accumulator and the
input text: a missing key raises `KeyError`; inside each lambda `frac(b)`
raises `InvalidOperation` when the text does not parse; the division
lambda raises `ZeroDivisionError` when `frac(b)` is zero. -/
def applyOp (op : String) (a : Frac) (b : String) : Except Mvvm.PyErr Frac :=
  if op = "+" ∨ op = "-" ∨ op = "x" ∨ op = "/" ∨ op = "=" then
    match parseNum b with
    | none => Except.error Mvvm.PyErr.invalidOperation
    | some q =>
      if op = "/" then
        if q.num = 0 then Except.error Mvvm.PyErr.zeroDivisionError
        else Except.ok (Frac.div a q)
      else if op = "+" then Except.ok (Frac.add a q)
      else if op = "-" then Except.ok (Frac.sub a q)
      else if op = "x" then Except.ok (Frac.mul a q)
      else Except.ok q
  else Except.error Mvvm.PyErr.keyError

/-- Embeds the `MyViewModel` state (Clac_Ironpython.py lines 11-22): the
two Notifiable text buffers, the exact accumulator, and the pending
operator. -/
structure Calc where
  inputText : String
  outputText : TextVal
  outputNumber : Frac
  prevOperator : String
deriving DecidableEq

/-- Initial `MyViewModel` state: both buffers start as the empty string,
the accumulator is `Fraction(0)` and the pending operator is the assign
key. -/
def initCalc : Calc :=
  { inputText := "", outputText := TextVal.str "", outputNumber := ⟨0, 1⟩,
    prevOperator := "=" }

/-- Embeds `MyViewModel.addDigitCommand` (Clac_Ironpython.py lines 24-31):
append the pressed key to the input buffer and keep the result only when
`float(tempText)` succeeds; otherwise the keystroke is silently ignored. -/
def addDigitCommand (s : Calc) (param : String) : Calc :=
  let tempText := s.inputText ++ param
  match parseNum tempText with
  | some _ => { s with inputText := tempText }
  | none => s

/-- Models the Python membership test for the character C in the pressed
key string (Clac_Ironpython.py line 39). -/
def containsC (param : String) : Bool :=
  param.data.any (fun c => c == 'C')

/-- Embeds lines 52-55 of `operatorCommand`: fold the input buffer into
the accumulator through the operator table, then advance the pending
operator, clear the input buffer and refresh the output buffer with the
float rendering of the new accumulator. Errors from the table propagate. -/
def opTail (s : Calc) (param : String) : Except Mvvm.PyErr Calc :=
  match applyOp s.prevOperator s.outputNumber s.inputText with
  | Except.error e => Except.error e
  | Except.ok n =>
    Except.ok { s with outputNumber := n, prevOperator := param,
                       inputText := "",
                       outputText := TextVal.str (strFloat n) }

/-- Embeds lines 45-55 of `operatorCommand`: an empty output buffer is
first replaced by the integer `0`; then, only when the pending operator is
division (short-circuit), `float(self.inputText)` is evaluated — raising
`ValueError` when the buffer does not parse — and a zero value clears both
buffers and returns, absorbing the division by zero. Otherwise the shared
tail runs. The zero test is modelled with the exact parse; values whose
float conversion underflows lie outside the fragment the program
produces. -/
def opMain (s : Calc) (param : String) : Except Mvvm.PyErr Calc :=
  if s.prevOperator = "/" then
    match parseNum s.inputText with
    | none => Except.error Mvvm.PyErr.valueError
    | some q =>
      if q.num = 0 then
        Except.ok { s with inputText := "", outputText := TextVal.str "" }
      else opTail s param
  else opTail s param

/-- Embeds lines 39-55 of `operatorCommand`, after the AC branch: a key
containing C clears the input buffer and returns; an empty input buffer
only records the pressed operator and returns; otherwise the output buffer
is defaulted and the main arithmetic path runs. The tests written as
`self.inputText is ''` and `self.outputText is ''` are identity tests
against the interned empty string, which coincide with equality on every
value these fields can hold. -/
def opAfterAC (s : Calc) (param : String) : Except Mvvm.PyErr Calc :=
  if containsC param then Except.ok { s with inputText := "" }
  else if s.inputText = "" then Except.ok { s with prevOperator := param }
  else
    opMain
      (if s.outputText = TextVal.str "" then { s with outputText := TextVal.intv 0 }
       else s) param

/-- Embeds `MyViewModel.operatorCommand` (Clac_Ironpython.py lines 33-55).
The AC branch has no `return`, so it falls through into the membership
branch (the key AC also contains C, so the input buffer is cleared as
well). -/
def operatorCommand (s : Calc) (param : String) : Except Mvvm.PyErr Calc :=
  if param = "AC" then
    opAfterAC { s with outputText := TextVal.str "", outputNumber := ⟨0, 1⟩,
                       prevOperator := "=" } param
  else opAfterAC s param

/-- Chains a digit-key press after the outcome of previous commands. -/
def pressDigit (r : Except Mvvm.PyErr Calc) (param : String) :
    Except Mvvm.PyErr Calc :=
  r.map (fun s => addDigitCommand s param)

/-- Chains an operator-key press after the outcome of previous commands. -/
def pressOp (r : Except Mvvm.PyErr Calc) (param : String) :
    Except Mvvm.PyErr Calc :=
  r.bind (fun s => operatorCommand s param)

end Clac

namespace Mvvm

/-- Dispatch over a subscriber list in which every live wrapper returns
normally: each live subscriber is called once, in list order, and no
exception escapes. -/
theorem dispatchList_all_live_ok (x : Nat) :
    ∀ l : List Handle, (∀ hd ∈ l, hd.live = true → hd.beh = HBeh.ok) →
      dispatchList l x =
        ((l.filter fun hd => hd.live).map fun hd => (hd.target, x), false) := by
  intro l
  induction l with
  | nil => intro _; rfl
  | cons hd rest ih =>
    intro h
    have hrest := ih (fun d hm => h d (List.mem_cons_of_mem hd hm))
    by_cases hl : hd.live = true
    · have hb := h hd (List.mem_cons_self hd rest) hl
      simp [dispatchList, hl, hb, hrest, List.filter_cons]
    · simp [dispatchList, hl, hrest, List.filter_cons]

/-- Claim C1: after subscribing a live handler to a topic and publishing a
message on that topic, one tick-drain dequeues the message, dispatches it
to every currently registered live subscriber of the topic in
subscriber-list order, invokes the new handler exactly once with the
published argument, and leaves the queue empty. The starting state has an
empty queue, and no live subscriber of the topic already wraps the handler
or raises when invoked. -/
theorem subscribe_publish_tick_delivers_once (s : Messenger) (t h x : Nat)
    (hq : s.queue = [])
    (hs : ∀ hd ∈ s.subscribers t, hd.live = true → hd.beh = HBeh.ok ∧ hd.target ≠ h) :
    (execute (send (subscribe s t h HBeh.ok) t x)).trace =
      (((s.subscribers t).filter fun hd => hd.live).map fun hd => (hd.target, x))
        ++ [(h, x)] ∧
    (execute (send (subscribe s t h HBeh.ok) t x)).trace.count (h, x) = 1 ∧
    (execute (send (subscribe s t h HBeh.ok) t x)).state.queue = [] ∧
    (execute (send (subscribe s t h HBeh.ok) t x)).err = false := by
  have hall : ∀ hd ∈ s.subscribers t ++ [(⟨s.next, h, true, HBeh.ok⟩ : Handle)],
      hd.live = true → hd.beh = HBeh.ok := by
    intro hd hm hl
    rcases List.mem_append.mp hm with h1 | h2
    · exact (hs hd h1 hl).1
    · simp at h2; subst h2; rfl
  have hdl := dispatchList_all_live_ok x
    (s.subscribers t ++ [⟨s.next, h, true, HBeh.ok⟩]) hall
  have hsub : (subscribe s t h HBeh.ok).subscribers t
      = s.subscribers t ++ [⟨s.next, h, true, HBeh.ok⟩] := by
    simp [subscribe]
  have hq1 : (subscribe s t h HBeh.ok).queue = s.queue := rfl
  have htr : (execute (send (subscribe s t h HBeh.ok) t x)).trace =
        (((s.subscribers t).filter fun hd => hd.live).map fun hd => (hd.target, x))
          ++ [(h, x)] := by
    simp [execute, send, hq1, hq, drainQueue, hsub, hdl, List.filter_append,
      List.map_append]
  refine ⟨htr, ?_, ?_, ?_⟩
  · rw [htr, List.count_append]
    have hz : (((s.subscribers t).filter fun hd => hd.live).map
        fun hd => (hd.target, x)).count (h, x) = 0 := by
      rw [List.count_eq_zero]
      intro hmem
      obtain ⟨hd, hdm, heq⟩ := List.mem_map.mp hmem
      obtain ⟨hdmem, hdlive⟩ := List.mem_filter.mp hdm
      exact (hs hd hdmem hdlive).2 (congrArg Prod.fst heq)
    simp [hz]
  · simp [execute, send, hq1, hq, drainQueue, hsub, hdl]
  · simp [execute, send, hq1, hq, drainQueue, hsub, hdl]

/-- Witness for C1: on the fresh messenger, subscribing handler 5 to topic
0 and publishing argument 9 delivers exactly one invocation of 5 with 9 on
the next tick. -/
theorem subscribe_publish_tick_delivers_once_witness :
    (execute (send (subscribe initMessenger 0 5 HBeh.ok) 0 9)).trace.count (5, 9) = 1 := by
  have h := subscribe_publish_tick_delivers_once initMessenger 0 5 9 rfl
    (by intro hd hm; simp [initMessenger] at hm)
  exact h.2.1

/-- Claim C2: setting a Notifiable property to a value equal to the current
one neither writes the slot nor raises any notification; setting it to a
different value stores it and raises exactly one property-changed
notification carrying the property name. -/
theorem notifiableSet_change_detection {α : Type} [DecidableEq α]
    (initial : α) (name : String) (slot : Option α) (value : α) :
    (notifiableGet initial slot = value →
      notifiableSet initial name slot value = (slot, [])) ∧
    (notifiableGet initial slot ≠ value →
      notifiableSet initial name slot value = (some value, [name])) := by
  constructor
  · intro h; simp [notifiableSet, h]
  · intro h; simp [notifiableSet, h]

/-- Witness for C2: writing 1 over a default of 0 stores the value and
raises one notification with the property name. -/
theorem notifiableSet_change_detection_witness :
    notifiableSet 0 "p" (none : Option Nat) 1 = (some 1, ["p"]) :=
  (notifiableSet_change_detection 0 "p" none 1).2 (by decide)

/-- Counterexample to C3 as stated: the `_command` cache lives on the
descriptor, not on the instance, so after instance 1 populates the cache,
an access through the distinct instance 2 returns the very same `Command`
object (identity 10, allocation counter untouched) still bound to instance
1 — not a distinct command bound to instance 2. -/
theorem commandGet_shared_cache_cex :
    commandGet { handler := some 7, can_execute := none, command := none } 1 10 =
      Except.ok (⟨10, 7, 1, none⟩,
        { handler := some 7, can_execute := none,
          command := some ⟨10, 7, 1, none⟩ }, 11) ∧
    commandGet { handler := some 7, can_execute := none,
                 command := some ⟨10, 7, 1, none⟩ } 2 11 =
      Except.ok (⟨10, 7, 1, none⟩,
        { handler := some 7, can_execute := none,
          command := some ⟨10, 7, 1, none⟩ }, 11) ∧
    (⟨10, 7, 1, none⟩ : Command).boundTo ≠ 2 :=
  ⟨rfl, rfl, by decide⟩

/-- Claim C3 as amended: exactly one `Command` exists per descriptor. The
first attribute access (through whichever instance) lazily constructs a
`Command` bound to that instance and caches it on the descriptor; every
later access, through any instance, returns the reference-identical cached
`Command` and leaves the descriptor and allocation counter unchanged. -/
theorem commandGet_descriptor_cache (d : CommandDesc) (f : Nat)
    (hf : d.handler = some f) (obj obj2 fresh : Nat) :
    (d.command = none →
      commandGet d obj fresh =
        Except.ok (⟨fresh, f, obj, d.can_execute⟩,
          { d with command := some ⟨fresh, f, obj, d.can_execute⟩ }, fresh + 1)) ∧
    (∀ c, d.command = some c →
      commandGet d obj2 fresh = Except.ok (c, d, fresh)) := by
  constructor
  · intro hc; simp [commandGet, hf, hc]
  · intro c hc; simp [commandGet, hf, hc]

/-- Witness for the amended C3: a first access through instance 1 creates
and caches the command bound to 1. -/
theorem commandGet_descriptor_cache_witness :
    commandGet { handler := some 7, can_execute := none, command := none } 1 10 =
      Except.ok (⟨10, 7, 1, none⟩,
        { handler := some 7, can_execute := none,
          command := some ⟨10, 7, 1, none⟩ }, 11) :=
  (commandGet_descriptor_cache
    { handler := some 7, can_execute := none, command := none } 7 rfl 1 2 10).1 rfl

/-- Removal by identity never succeeds on a list whose members all have an
identity different from the probe. -/
theorem listRemoveIdentical_none (w : Handle) :
    ∀ l : List Handle, (∀ hd ∈ l, hd.hid ≠ w.hid) →
      listRemoveIdentical l w = none := by
  intro l
  induction l with
  | nil => intro _; rfl
  | cons hd rest ih =>
    intro h
    have h1 : hd.hid ≠ w.hid := h hd (List.mem_cons_self hd rest)
    have h2 := ih (fun d hm => h d (List.mem_cons_of_mem hd hm))
    simp [listRemoveIdentical, h1, h2]

/-- The fresh messenger satisfies allocation soundness. -/
theorem wfAlloc_initMessenger : WfAlloc initMessenger := by
  intro u hd hm
  simp [initMessenger] at hm

/-- Subscribing preserves allocation soundness. -/
theorem wfAlloc_subscribe (s : Messenger) (t h : Nat) (b : HBeh)
    (hwf : WfAlloc s) : WfAlloc (subscribe s t h b) := by
  intro u hd hm
  simp only [subscribe] at hm ⊢
  by_cases hu : u = t
  · rw [if_pos hu] at hm
    rcases List.mem_append.mp hm with h1 | h2
    · exact Nat.lt_succ_of_lt (hwf u hd h1)
    · simp at h2; subst h2; exact Nat.lt_succ_self _
  · rw [if_neg hu] at hm
    exact Nat.lt_succ_of_lt (hwf u hd hm)

/-- Claim C4: `unsubscribe` never removes a stored subscriber entry. The
freshly constructed `WeakCallable` wrapper takes a new object identity, so
the identity-based `list.remove` comparison matches no previously stored
handle: the `ValueError` escapes and the subscriber table is unchanged. -/
theorem unsubscribe_never_removes (s : Messenger) (t handler : Nat)
    (hwf : WfAlloc s) :
    (unsubscribe s t handler).2 = some PyErr.valueError ∧
    (unsubscribe s t handler).1.subscribers = s.subscribers := by
  have hnone := listRemoveIdentical_none ⟨s.next, handler, true, HBeh.ok⟩
    (s.subscribers t) (fun hd hm => Nat.ne_of_lt (hwf t hd hm))
  constructor <;> simp [unsubscribe, hnone]

/-- Witness for C4: after subscribing handler 5 to topic 0 on the fresh
messenger, unsubscribing that very handler still raises `ValueError`. -/
theorem unsubscribe_never_removes_witness :
    (unsubscribe (subscribe initMessenger 0 5 HBeh.ok) 0 5).2
      = some PyErr.valueError :=
  (unsubscribe_never_removes (subscribe initMessenger 0 5 HBeh.ok) 0 5
    (wfAlloc_subscribe initMessenger 0 5 HBeh.ok wfAlloc_initMessenger)).1

/-- Claim C5: during a tick-drain, an invocation that fails because the
weak target is gone is swallowed and dispatch continues with the next
subscriber; a live subscriber that raises any other exception aborts the
tick — the exception propagates and the queued messages dequeued after the
failing one are left unprocessed. -/
theorem tick_error_policy (s : Messenger) (t x : Nat) (q : List (Nat × Nat))
    (hq : s.queue = (t, x) :: q) :
    (∀ d rest, d.live = false → dispatchList (d :: rest) x = dispatchList rest x) ∧
    (∀ r rest, r.live = true → r.beh = HBeh.raises →
      dispatchList (r :: rest) x = ([(r.target, x)], true)) ∧
    ((dispatchList (s.subscribers t) x).2 = true →
      (execute s).err = true ∧ (execute s).state.queue = q) := by
  refine ⟨?_, ?_, ?_⟩
  · intro d rest hl; simp [dispatchList, hl]
  · intro r rest hl hb; simp [dispatchList, hl, hb]
  · intro hab
    constructor <;> simp [execute, hq, drainQueue, hab]

/-- Witness for C5: with a raising subscriber on topic 0 and two queued
messages, the tick propagates the error and leaves the second message
unprocessed. -/
theorem tick_error_policy_witness :
    (execute { subscribers := fun u => if u = 0 then [⟨0, 7, true, HBeh.raises⟩] else [],
               queue := [(0, 1), (2, 3)], next := 1 }).err = true ∧
    (execute { subscribers := fun u => if u = 0 then [⟨0, 7, true, HBeh.raises⟩] else [],
               queue := [(0, 1), (2, 3)], next := 1 }).state.queue = [(2, 3)] :=
  (tick_error_policy
    { subscribers := fun u => if u = 0 then [⟨0, 7, true, HBeh.raises⟩] else [],
      queue := [(0, 1), (2, 3)], next := 1 } 0 1 [(2, 3)] rfl).2.2 rfl

/-- Claim C6: publishing on a topic with no subscribers never raises (the
enqueue is total), and the next tick dequeues the message while invoking
nothing, leaving the pending queue empty. -/
theorem publish_no_subscribers_drains (s : Messenger) (t x : Nat)
    (h1 : s.subscribers t = []) (h2 : s.queue = []) :
    (execute (send s t x)).trace = [] ∧
    (execute (send s t x)).state.queue = [] ∧
    (execute (send s t x)).err = false := by
  refine ⟨?_, ?_, ?_⟩ <;> simp [execute, send, h2, drainQueue, h1, dispatchList]

/-- Witness for C6: publishing on topic 3 of the fresh messenger and
ticking drains the queue without any invocation. -/
theorem publish_no_subscribers_drains_witness :
    (execute (send initMessenger 3 4)).trace = [] ∧
    (execute (send initMessenger 3 4)).state.queue = [] ∧
    (execute (send initMessenger 3 4)).err = false :=
  publish_no_subscribers_drains initMessenger 3 4 rfl rfl

/-- Claim C9: `remove_PropertyChanged` always raises `AttributeError` —
`Remove` is not an attribute of the Python list holding the handlers — and
leaves the registered handler list unchanged, for any handler, including
one previously added through `add_PropertyChanged`. -/
theorem remove_PropertyChanged_always_raises (vm : VMState) (handler : Nat) :
    remove_PropertyChanged vm handler = (vm, some PyErr.attributeError) ∧
    remove_PropertyChanged (add_PropertyChanged vm handler) handler =
      (add_PropertyChanged vm handler, some PyErr.attributeError) := by
  have h : ¬ ("Remove" ∈ pyListAttrs) := by decide
  constructor <;> simp [remove_PropertyChanged, h]

/-- Claim C10: `List.extend` adds only the first element of a non-empty
sequence (the `return` sits inside the loop) and adds nothing for an empty
sequence; in both cases the call returns None, the value of the void
`Add`. -/
theorem listExtend_first_element_only {α : Type} (xs : List α) (a : α)
    (rest : List α) :
    listExtend xs (a :: rest) = xs ++ [a] ∧ listExtend xs [] = xs :=
  ⟨rfl, rfl⟩

end Mvvm

namespace Clac

/-- Division by a parsed nonzero value succeeds with the exact quotient. -/
theorem applyOp_divnz (a : Frac) (b : String) (q : Frac)
    (hb : parseNum b = some q) (h0 : ¬ q.num = 0) :
    applyOp "/" a b = Except.ok (Frac.div a q) := by
  simp [applyOp, hb, h0]

/-- When the operator table succeeds, the shared tail stores the new
accumulator, records the pressed operator, clears the input buffer and
renders the output buffer. -/
theorem opTail_of_applyOp (s : Calc) (param : String) (n : Frac)
    (ha : applyOp s.prevOperator s.outputNumber s.inputText = Except.ok n) :
    opTail s param =
      Except.ok { s with outputNumber := n, prevOperator := param,
                         inputText := "",
                         outputText := TextVal.str (strFloat n) } := by
  simp [opTail, ha]

/-- Pressing the division key on a state with a parseable non-empty input
buffer and a known pending operator succeeds through the main arithmetic
path and leaves an empty input buffer with division pending. -/
theorem opMain_slash_resets (s : Calc)
    (hin : (parseNum s.inputText).isSome = true)
    (hop : s.prevOperator = "+" ∨ s.prevOperator = "-" ∨ s.prevOperator = "x" ∨
           s.prevOperator = "/" ∨ s.prevOperator = "=") :
    ∃ s2, opMain s "/" = Except.ok s2 ∧ s2.inputText = "" ∧
      s2.prevOperator = "/" := by
  obtain ⟨q, hq⟩ := Option.isSome_iff_exists.mp hin
  by_cases hpv : s.prevOperator = "/"
  · by_cases h0 : q.num = 0
    · exact ⟨{ s with inputText := "", outputText := TextVal.str "" },
        by simp [opMain, hpv, hq, h0], rfl, hpv⟩
    · have ha : applyOp s.prevOperator s.outputNumber s.inputText
          = Except.ok (Frac.div s.outputNumber q) := by
        rw [hpv]; exact applyOp_divnz s.outputNumber s.inputText q hq h0
      have ht := opTail_of_applyOp s "/" (Frac.div s.outputNumber q) ha
      exact ⟨{ s with outputNumber := Frac.div s.outputNumber q,
                      prevOperator := "/", inputText := "",
                      outputText :=
                        TextVal.str (strFloat (Frac.div s.outputNumber q)) },
        by simp [opMain, hpv, hq, h0, ht], rfl, rfl⟩
  · have ha : ∃ n, applyOp s.prevOperator s.outputNumber s.inputText
        = Except.ok n := by
      rcases hop with h | h | h | h | h
      · exact ⟨Frac.add s.outputNumber q, by rw [h]; simp [applyOp, hq]⟩
      · exact ⟨Frac.sub s.outputNumber q, by rw [h]; simp [applyOp, hq]⟩
      · exact ⟨Frac.mul s.outputNumber q, by rw [h]; simp [applyOp, hq]⟩
      · exact absurd h hpv
      · exact ⟨q, by rw [h]; simp [applyOp, hq]⟩
    obtain ⟨n, ha⟩ := ha
    have ht := opTail_of_applyOp s "/" n ha
    exact ⟨{ s with outputNumber := n, prevOperator := "/", inputText := "",
                    outputText := TextVal.str (strFloat n) },
      by simp [opMain, hpv, ht], rfl, rfl⟩

/-- Pressing the division key on any well-formed state succeeds and leaves
an empty input buffer with division pending. -/
theorem opSlash_resets (s : Calc)
    (hin : s.inputText = "" ∨ (parseNum s.inputText).isSome = true)
    (hop : s.prevOperator = "+" ∨ s.prevOperator = "-" ∨ s.prevOperator = "x" ∨
           s.prevOperator = "/" ∨ s.prevOperator = "=") :
    ∃ s1, operatorCommand s "/" = Except.ok s1 ∧ s1.inputText = "" ∧
      s1.prevOperator = "/" := by
  have hC : containsC "/" = false := rfl
  by_cases hie : s.inputText = ""
  · exact ⟨{ s with prevOperator := "/" },
      by simp [operatorCommand, opAfterAC, hC, hie], hie, rfl⟩
  · have hin2 := hin.resolve_left hie
    by_cases ho : s.outputText = TextVal.str ""
    · obtain ⟨s2, h2, h2i, h2p⟩ := opMain_slash_resets
        { s with outputText := TextVal.intv 0 } hin2 hop
      exact ⟨s2, by simp [operatorCommand, opAfterAC, hC, hie, ho, h2],
        h2i, h2p⟩
    · obtain ⟨s2, h2, h2i, h2p⟩ := opMain_slash_resets s hin2 hop
      exact ⟨s2, by simp [operatorCommand, opAfterAC, hC, hie, ho, h2],
        h2i, h2p⟩

/-- Pressing the assign key with the digit 0 in the input buffer while
division is pending takes the division-by-zero branch: both buffers end
empty and no exception escapes. -/
theorem opEq_after_zero_clears (s : Calc) (hi : s.inputText = "0")
    (hp : s.prevOperator = "/") :
    (operatorCommand s "=").map (fun c => (c.inputText, c.outputText)) =
      Except.ok ("", TextVal.str "") := by
  have hC : containsC "=" = false := rfl
  have hp0 : parseNum "0" = some (⟨0, 1⟩ : Frac) := rfl
  have hie : ¬ (s.inputText = "") := by rw [hi]; decide
  by_cases ho : s.outputText = TextVal.str ""
  · simp [operatorCommand, opAfterAC, hC, hie, ho, opMain, hp, hi, hp0,
      Except.map]
  · simp [operatorCommand, opAfterAC, hC, hie, ho, opMain, hp, hi, hp0,
      Except.map]

/-- Claim C7: from any well-formed calculator state — the input buffer is
empty or parseable and the pending operator is one of the five keys — the
key sequence division, digit 0, assign is absorbed silently: no exception
escapes `operatorCommand` and both text buffers end cleared to the empty
string. -/
theorem div_zero_clears_buffers (s : Calc)
    (hin : s.inputText = "" ∨ (parseNum s.inputText).isSome = true)
    (hop : s.prevOperator = "+" ∨ s.prevOperator = "-" ∨ s.prevOperator = "x" ∨
           s.prevOperator = "/" ∨ s.prevOperator = "=") :
    (pressOp (pressDigit (pressOp (Except.ok s) "/") "0") "=").map
      (fun c => (c.inputText, c.outputText)) = Except.ok ("", TextVal.str "") := by
  obtain ⟨s1, h1, h1i, h1p⟩ := opSlash_resets s hin hop
  have hq0 : parseNum "0" = some (⟨0, 1⟩ : Frac) := rfl
  have hca : ("" : String) ++ "0" = "0" := rfl
  have hd : addDigitCommand s1 "0" = { s1 with inputText := "0" } := by
    simp [addDigitCommand, h1i, hca, hq0]
  have h3 := opEq_after_zero_clears { s1 with inputText := "0" } rfl h1p
  have hchain : pressOp (pressDigit (pressOp (Except.ok s) "/") "0") "=" =
      operatorCommand { s1 with inputText := "0" } "=" := by
    simp [pressOp, pressDigit, h1, hd, Except.bind, Except.map]
  rw [hchain]
  exact h3

/-- Witness for C7: from the initial state, the division, 0, assign key
sequence clears both buffers without an exception. -/
theorem div_zero_clears_buffers_witness :
    (pressOp (pressDigit (pressOp (Except.ok initCalc) "/") "0") "=").map
      (fun c => (c.inputText, c.outputText)) = Except.ok ("", TextVal.str "") :=
  div_zero_clears_buffers initCalc (Or.inl rfl)
    (Or.inr (Or.inr (Or.inr (Or.inr rfl))))

/-- Claim C8: from the initial state, pressing digit 5, plus, digit 3,
assign leaves the output buffer equal to the string 8.0 (with the exact
accumulator at 8, the input buffer empty, and assign pending). -/
theorem five_plus_three_gives_eight :
    pressOp (pressDigit (pressOp (pressDigit (Except.ok initCalc) "5") "+") "3") "=" =
      Except.ok { inputText := "", outputText := TextVal.str "8.0",
                  outputNumber := ⟨8, 1⟩, prevOperator := "=" } := rfl

end Clac
